import Mathlib

/-!
Verification of the contact-extraction and listing-filter logic of the
idealista-contacts-scraper repository (src/main.py), as a shallow embedding.

Modelling conventions:
* Python strings are Lean `String`s (lists of Unicode scalar chars); an
  argument that may be `None` is an `Option String` and the Python truthiness
  guard `if not text` is the test for `none` or the empty string.
* The character classes of the regular expressions are modelled on their
  ASCII fragment: Python's re module would additionally accept non-ASCII
  Unicode digits/whitespace/letters, which no claim exercises.
* `re.findall(pat, text)` scans left to right, tries a match at every start
  position, emits for each match the text of capture group 1 when the
  pattern has exactly one group (the phone patterns) and the whole match
  when it has none (the bare-digit and email patterns), and resumes after
  the end of each match.  This is embedded by an explicit scanner
  (`findallGo`) driven by per-pattern matchers; the matchers implement the
  backtracking behaviour of the concrete patterns exactly (worked out
  pattern by pattern in the comments below).  The scanner uses the input
  length as fuel; every matcher consumes at least one character per match
  and the scanner otherwise advances one character, so the fuel is never
  exhausted.
* Python's `list(set(xs))` produces the distinct elements of `xs` in an
  unspecified order; it is modelled as first-seen-order deduplication
  (`pySetList`).  Only order-insensitive facts are proved about results
  that pass through it.
* Network fetches / HTML parsing are external effects: the fetched, parsed
  page content is passed in as data (`DetailPage`, `Article`), and
  `urllib.parse.urljoin` and `scrape_property_detail`'s result are
  oracle parameters of the listing loop.
-/

/-! ## Character classes (ASCII fragment of the Python regex classes) -/

/-- ASCII fragment of the regex class `\s`: the characters Python's `re`
treats as whitespace within ASCII. -/
def isPySpace (c : Char) : Bool :=
  c == ' ' || c == '\t' || c == '\n' || c == '\r' || c == '\x0b' || c == '\x0c'

/-- Separator class `[\s\-\.]` used by `re.sub` in the cleaning step. -/
def isSepChar (c : Char) : Bool :=
  isPySpace c || c == '-' || c == '.'

/-- Leading-character class `[6789]` of the mobile pattern. -/
def mobileFirst (c : Char) : Bool :=
  c == '6' || c == '7' || c == '8' || c == '9'

/-- Leading-character class `9` of the landline pattern. -/
def landFirst (c : Char) : Bool :=
  c == '9'

/-! ## Generic findall scanner -/

/-- Consume exactly `n` ASCII digits (`\d{n}`), returning the rest. -/
def takeDigitsR : Nat → List Char → Option (List Char)
  | 0, cs => some cs
  | _ + 1, [] => none
  | n + 1, c :: cs => if c.isDigit then takeDigitsR n cs else none

/-- One step of `re.findall`: try the matcher at the current position; on a
match emit its captured string and resume after the match, otherwise advance
one character.  `fuel` starts at the input length, which suffices because
every match consumes at least one character. -/
def findallGo (M : List Char → Option (String × List Char)) :
    Nat → List Char → List String
  | 0, _ => []
  | _ + 1, [] => []
  | fuel + 1, c :: cs =>
    match M (c :: cs) with
    | some (g, rest) => g :: findallGo M fuel rest
    | none => findallGo M fuel cs

/-- Embedding of `re.findall(pattern, text)` for a matcher `M` implementing
`pattern` at a fixed start position. -/
def pyFindall (M : List Char → Option (String × List Char)) (cs : List Char) :
    List String :=
  findallGo M cs.length cs

/-! ## The two prefixed phone patterns

`r'(\+34|0034)?\s*[6789]\d{2}\s*\d{2}\s*\d{2}\s*\d{2}'` (mobile) and
`r'(\+34|0034)?\s*9\d{2}\s*\d{2}\s*\d{2}\s*\d{2}'` (landline).

Backtracking analysis used by the matcher below: each `\s*` is greedy and is
followed by a digit class, and digits are never whitespace, so maximal-munch
whitespace consumption never needs to be undone.  For the leading group, the
alternatives `+34`, `0034`, and the empty string are tried in that order; if
the text starts with `+34` (resp. `0034`) and the rest of the pattern fails
after it, the remaining alternatives also fail, because the following
character `+` (resp. `0`) belongs to none of the classes `\s`, `[6789]`,
`9`.  Hence matching at a position is deterministic: commit to the literal
group that is present, else to the empty group. -/

/-- Match `\s* F \d{2} \s* \d{2} \s* \d{2} \s* \d{2}` (the phone pattern
after the optional group), where `F` is the leading character class;
returns the rest of the input after the match. -/
def matchMobileTail (first : Char → Bool) (cs : List Char) : Option (List Char) :=
  match cs.dropWhile isPySpace with
  | [] => none
  | c :: cs1 =>
    if first c then
      match takeDigitsR 2 cs1 with
      | none => none
      | some cs2 =>
        match takeDigitsR 2 (cs2.dropWhile isPySpace) with
        | none => none
        | some cs3 =>
          match takeDigitsR 2 (cs3.dropWhile isPySpace) with
          | none => none
          | some cs4 => takeDigitsR 2 (cs4.dropWhile isPySpace)
    else none

/-- Match one of the two prefixed phone patterns at the current position.
The returned string is the text of capture group 1 — the optional country
prefix — because `re.findall` returns the group, not the whole match, when
the pattern has exactly one group. -/
def matchPrefixed (first : Char → Bool) (cs : List Char) :
    Option (String × List Char) :=
  if cs.take 3 = ['+', '3', '4'] then
    (matchMobileTail first (cs.drop 3)).map (fun r => ("+34", r))
  else if cs.take 4 = ['0', '0', '3', '4'] then
    (matchMobileTail first (cs.drop 4)).map (fun r => ("0034", r))
  else
    (matchMobileTail first cs).map (fun r => ("", r))

/-- Match the groupless bare pattern `[6789]\d{8}` at the current position;
`re.findall` returns the whole 9-digit match for it. -/
def matchBare (cs : List Char) : Option (String × List Char) :=
  match cs with
  | [] => none
  | c :: cs1 =>
    if mobileFirst c then
      let ds := cs1.take 8
      if ds.length == 8 && ds.all Char.isDigit then
        some (String.mk (c :: ds), cs1.drop 8)
      else none
    else none

/-- The concatenated results of the three `re.findall` calls of
`extract_phone_from_text`, in program order. -/
def phoneCandidates (cs : List Char) : List String :=
  pyFindall (matchPrefixed mobileFirst) cs ++
    pyFindall (matchPrefixed landFirst) cs ++
    pyFindall matchBare cs

/-! ## Cleaning and normalization -/

/-- Test whether `pat` is a prefix of `cs` (the list-level form of Python's
`str.startswith`, used to keep all computation kernel-reducible). -/
def beginsWith : List Char → List Char → Bool
  | [], _ => true
  | _ :: _, [] => false
  | p :: ps, c :: cs => p == c && beginsWith ps cs

/-- Embedding of `re.sub(r'[\s\-\.]', '', phone)`. -/
def stripSeps (s : String) : String :=
  String.mk (s.data.filter (fun c => !isSepChar c))

/-- The per-candidate normalization of `extract_phone_from_text`: strip
separators, then add the country code exactly as the Python branch chain
does (`startswith` and slicing are expressed on the character list). -/
def normalizePhone (phone : String) : String :=
  let p := stripSeps phone
  if beginsWith ['+'] p.data then p
  else if beginsWith ['0', '0', '3', '4'] p.data then "+34" ++ String.mk (p.data.drop 4)
  else if beginsWith ['3', '4'] p.data then "+" ++ p
  else "+34" ++ p

/-- One iteration of the cleaning loop: append the normalized candidate when
it is new and at least 11 characters long
(`if phone not in cleaned_phones and len(phone) >= 11`). -/
def phoneCleanStep (acc : List String) (ph : String) : List String :=
  if normalizePhone ph ∉ acc ∧ 11 ≤ (normalizePhone ph).length then
    acc ++ [normalizePhone ph]
  else acc

/-- The raw candidate stream of `extract_phone_from_text` for a possibly
absent text: empty when the text is `None` or empty (the `if not text`
guard), else the three findall results in order. -/
def phoneCandidatesOf : Option String → List String
  | none => []
  | some t => if t = "" then [] else phoneCandidates t.data

/-- Embedding of `extract_phone_from_text` (src/main.py, lines 49–84). -/
def extract_phone_from_text (text : Option String) : List String :=
  (phoneCandidatesOf text).foldl phoneCleanStep []

example : extract_phone_from_text (some "0034612345678") = ["+34612345678"] := by decide
example : extract_phone_from_text (some "612345678") = ["+34612345678"] := by decide
example : extract_phone_from_text (some "612 34 56 78") = [] := by decide

/-! ## Email extraction

Pattern `r'[a-zA-Z0-9._%+-]+@[a-zA-Z0-9.-]+\.[a-zA-Z]{2,}'` (no groups, so
`re.findall` returns whole matches), followed by `list(set(emails))`. -/

/-- Local-part class `[a-zA-Z0-9._%+-]` of the email pattern. -/
def isLocalChar (c : Char) : Bool :=
  c.isAlphanum || c == '.' || c == '_' || c == '%' || c == '+' || c == '-'

/-- Domain class `[a-zA-Z0-9.-]` of the email pattern. -/
def isDomChar (c : Char) : Bool :=
  c.isAlphanum || c == '.' || c == '-'

/-- Backtracking of `[a-zA-Z0-9.-]+\.[a-zA-Z]{2,}` inside the maximal run of
domain characters: the greedy `+` is given back one character at a time, so
the split taken is the rightmost position inside the run whose character is
a dot followed by at least two letters (the letter run cannot extend past
the end of the domain run, since letters are domain characters).  Returns
the consumed part from the dot on (dot plus the greedy letter run) and the
unconsumed leftover of the run. -/
def emailDomSplit : List Char → Option (List Char × List Char)
  | [] => none
  | c :: cs =>
    match emailDomSplit cs with
    | some (m, left) => some (c :: m, left)
    | none =>
      if c == '.' then
        let run := cs.takeWhile Char.isAlpha
        if 2 ≤ run.length then some ('.' :: run, cs.drop run.length) else none
      else none

/-- Match the email pattern at the current position: a nonempty greedy run of
local characters (which cannot swallow the following `@`, so needs no
backtracking), the `@`, then the domain with the backtracking of
`emailDomSplit`.  At least one domain character must precede the dot. -/
def matchEmail (cs : List Char) : Option (String × List Char) :=
  match cs.takeWhile isLocalChar, cs.dropWhile isLocalChar with
  | [], _ => none
  | loc, '@' :: r2 =>
    match r2.takeWhile isDomChar, r2.dropWhile isDomChar with
    | [], _ => none
    | d0 :: drest, r3 =>
      match emailDomSplit drest with
      | none => none
      | some (m, left) => some (String.mk (loc ++ '@' :: d0 :: m), left ++ r3)
  | _, _ => none

/-- First-seen-order deduplication with an explicit seen accumulator; the
model of Python's `list(set(xs))` (whose order is unspecified — only
order-insensitive facts are proved about results built with it). -/
def dedupAcc : List String → List String → List String
  | _, [] => []
  | seen, x :: xs =>
    if x ∈ seen then dedupAcc seen xs else x :: dedupAcc (seen ++ [x]) xs

/-- Model of `list(set(xs))`. -/
def pySetList (l : List String) : List String :=
  dedupAcc [] l

/-- Embedding of `extract_email_from_text` (src/main.py, lines 86–93). -/
def extract_email_from_text (text : Option String) : List String :=
  match text with
  | none => []
  | some t => if t = "" then [] else pySetList (pyFindall matchEmail t.data)

example :
    extract_email_from_text (some "Contact: a.b@example.co, again a.b@example.co") =
      ["a.b@example.co"] := by decide

/-! ## Detail fetcher (`scrape_property_detail`)

The HTTP fetch, permissive decode and HTML parse are external effects: their
outcome is passed in as an `Except`.  A successful fetch is summarized by
the data the function actually reads from the parsed page: the whole-page
text (`soup.get_text()`) and the texts of the elements matching the
contact-like selector, in document order. -/

/-- The Contact Bundle `{'phones': ..., 'emails': ...}`. -/
structure Contacts where
  phones : List String
  emails : List String
deriving DecidableEq, Repr

/-- Parsed content of a successfully fetched detail page. -/
structure DetailPage where
  page_text : String
  contact_texts : List String
deriving Repr

/-- Embedding of `scrape_property_detail` (src/main.py, lines 95–129): on any
failure of the fetch/decode/parse (the `except` arm) return the empty
Contact Bundle; on success run both extractors over the page text, extend
with the extractor results on each contact-like element's text, and
deduplicate each field with `list(set(...))`. -/
def scrape_property_detail (fetch : Except String DetailPage) : Contacts :=
  match fetch with
  | Except.error _ => { phones := [], emails := [] }
  | Except.ok pg =>
    let phones0 := extract_phone_from_text (some pg.page_text)
    let emails0 := extract_email_from_text (some pg.page_text)
    let phones1 := phones0 ++ pg.contact_texts.flatMap (fun s => extract_phone_from_text (some s))
    let emails1 := emails0 ++ pg.contact_texts.flatMap (fun s => extract_email_from_text (some s))
    { phones := pySetList phones1, emails := pySetList emails1 }

/-! ## Search URL construction -/

/-- Embedding of `build_search_url` (src/main.py, lines 131–135).  The page
number is an `Int`, like a Python `int` obtained from the query string. -/
def build_search_url (base_url : String) (page : Int) : String :=
  if page ≤ 1 then base_url
  else base_url ++ "pagina-" ++ toString page ++ ".htm"

example : build_search_url "https://x/y/" 3 = "https://x/y/pagina-3.htm" := by decide

/-! ## Listing fetcher (`scrape_idealista_contacts`)

The search-page fetch and BeautifulSoup traversal are external: the loop is
embedded over the list of parsed candidate containers
(`soup.find_all("article", class_="item")`), each summarized by the data the
loop reads from it.  `urllib.parse.urljoin` and the detail fetch are oracle
parameters; `datetime.now().isoformat()` is the parameter `now`. -/

/-- Lowercasing of ASCII letters, as done by `re.I` matching on the ASCII
patterns `agencia`/`inmobiliaria`. -/
def lowerAscii (c : Char) : Char :=
  if c.isUpper then Char.ofNat (c.toNat + 32) else c

/-- Test whether `pat` occurs as a contiguous subsequence of `cs`. -/
def occursIn (pat : List Char) : List Char → Bool
  | [] => beginsWith pat []
  | c :: cs => beginsWith pat (c :: cs) || occursIn pat cs

/-- Embedding of `re.search(r"agencia|inmobiliaria", extra_text, re.I)`
being a match: one of the two literal words occurs in the lowercased text. -/
def agencyMatch (s : String) : Bool :=
  let low := s.data.map lowerAscii
  occursIn "agencia".data low || occursIn "inmobiliaria".data low

/-- Match `/inmueble/(\d+)/` at the current position, returning the digit
group.  The greedy `\d+` needs no backtracking because the following `/` is
not a digit. -/
def matchInmuebleAt (cs : List Char) : Option String :=
  if beginsWith "/inmueble/".data cs then
    let rest := cs.drop 10
    let ds := rest.takeWhile Char.isDigit
    match ds, rest.drop ds.length with
    | _ :: _, '/' :: _ => some (String.mk ds)
    | _, _ => none
  else none

/-- Embedding of `re.search(r"/inmueble/(\d+)/", url)`: the digit group of
the leftmost match, if any. -/
def findInmuebleId : List Char → Option String
  | [] => none
  | c :: cs =>
    match matchInmuebleAt (c :: cs) with
    | some ds => some ds
    | none => findInmuebleId cs

/-- The anchor `a.item-link` of a candidate listing container, summarized by
its optional `href` attribute and its stripped text. -/
structure TitleEl where
  href : Option String
  text : String
deriving DecidableEq, Repr

/-- A candidate listing container (`article.item`), summarized by the data
the loop reads: the stripped text of the optional subtitle/extra-info
element, the optional title anchor, and the stripped texts of the optional
price and location elements. -/
structure Article where
  extra_info : Option String
  title_el : Option TitleEl
  price_text : Option String
  location_text : Option String
deriving DecidableEq, Repr

/-- The per-listing output record of `scrape_idealista_contacts`. -/
structure ListingRecord where
  id : Option String
  titulo : String
  precio : String
  ubicacion : String
  url : String
  telefonos : List String
  emails : List String
  fecha_scraping : String
deriving DecidableEq, Repr

/-- The agency filter: the subtitle/extra-info element is present and its
text matches `agencia|inmobiliaria` case-insensitively. -/
def isAgencyArticle (a : Article) : Bool :=
  match a.extra_info with
  | some s => agencyMatch s
  | none => false

/-- The absolute URL of a candidate listing: the anchor's `href` when present,
run through `urljoin("https://www.idealista.com", ·)` when nonempty (truthy)
and not starting with `"http"`.  The `urljoin` library call is the oracle
parameter `urlj`. -/
def articleUrl (urlj : String → String → String) (a : Article) : Option String :=
  match a.title_el.bind TitleEl.href with
  | none => none
  | some r =>
    if r ≠ "" ∧ ¬ beginsWith "http".data r.data then
      some (urlj "https://www.idealista.com" r)
    else some r

/-- The body of one iteration of the listing loop, after the max-count break
check: skip agency-tagged listings, skip listings without a truthy absolute
URL, fetch the detail contacts through the oracle `detail`, and append a
record only when the Contact Bundle is non-empty in at least one field. -/
def processArticle (detail : String → Contacts) (urlj : String → String → String)
    (now : String) (a : Article) (acc : List ListingRecord) : List ListingRecord :=
  if isAgencyArticle a then acc
  else
    match articleUrl urlj a with
    | none => acc
    | some u =>
      if u = "" then acc
      else
        if (detail u).phones ≠ [] ∨ (detail u).emails ≠ [] then
          acc ++ [{ id := findInmuebleId u.data,
                    titulo := match a.title_el with | some t => t.text | none => "",
                    precio := a.price_text.getD "",
                    ubicacion := a.location_text.getD "",
                    url := u,
                    telefonos := (detail u).phones,
                    emails := (detail u).emails,
                    fecha_scraping := now }]
        else acc

/-- The listing loop: before each candidate, break when the accepted count
has reached `maxp` (`if len(properties) >= max_properties: break`). -/
def scrapeGo (detail : String → Contacts) (urlj : String → String → String)
    (now : String) (maxp : Int) :
    List Article → List ListingRecord → List ListingRecord
  | [], acc => acc
  | a :: rest, acc =>
    if maxp ≤ (acc.length : Int) then acc
    else scrapeGo detail urlj now maxp rest (processArticle detail urlj now a acc)

/-- Embedding of `scrape_idealista_contacts` (src/main.py, lines 137–198),
from the parsed candidate containers of the fetched search page. -/
def scrape_idealista_contacts (articles : List Article)
    (detail : String → Contacts) (urlj : String → String → String)
    (now : String) (max_properties : Int) : List ListingRecord :=
  scrapeGo detail urlj now max_properties articles []

/-! ## Helper lemmas -/

theorem dedupAcc_cons_mem {seen : List String} {x : String} (h : x ∈ seen)
    (xs : List String) : dedupAcc seen (x :: xs) = dedupAcc seen xs := by
  simp [dedupAcc, h]

theorem dedupAcc_cons_not_mem {seen : List String} {x : String} (h : x ∉ seen)
    (xs : List String) :
    dedupAcc seen (x :: xs) = x :: dedupAcc (seen ++ [x]) xs := by
  simp [dedupAcc, h]

theorem dedupAcc_mem_not_seen :
    ∀ (l seen : List String) (x : String), x ∈ dedupAcc seen l → x ∉ seen := by
  intro l
  induction l with
  | nil => intro seen x hx; simp [dedupAcc] at hx
  | cons y ys ih =>
    intro seen x hx
    by_cases hy : y ∈ seen
    · rw [dedupAcc_cons_mem hy] at hx
      exact ih seen x hx
    · rw [dedupAcc_cons_not_mem hy] at hx
      rcases List.mem_cons.1 hx with rfl | hx
      · exact hy
      · intro hseen
        exact ih (seen ++ [y]) x hx (List.mem_append.2 (Or.inl hseen))

theorem dedupAcc_nodup : ∀ (l seen : List String), (dedupAcc seen l).Nodup := by
  intro l
  induction l with
  | nil => intro seen; simp [dedupAcc]
  | cons y ys ih =>
    intro seen
    by_cases hy : y ∈ seen
    · rw [dedupAcc_cons_mem hy]
      exact ih seen
    · rw [dedupAcc_cons_not_mem hy]
      refine List.nodup_cons.2 ⟨?_, ih (seen ++ [y])⟩
      intro hmem
      exact dedupAcc_mem_not_seen ys (seen ++ [y]) y hmem
        (List.mem_append.2 (Or.inr (List.mem_singleton.2 rfl)))

theorem phoneCleanStep_keep {acc : List String} {ph : String}
    (h1 : normalizePhone ph ∉ acc) (h2 : 11 ≤ (normalizePhone ph).length) :
    phoneCleanStep acc ph = acc ++ [normalizePhone ph] := by
  simp [phoneCleanStep, h1, h2]

theorem phoneCleanStep_drop {acc : List String} {ph : String}
    (h : normalizePhone ph ∈ acc ∨ ¬ 11 ≤ (normalizePhone ph).length) :
    phoneCleanStep acc ph = acc := by
  unfold phoneCleanStep
  rcases h with h | h
  · rw [if_neg]
    intro hc
    exact hc.1 h
  · rw [if_neg]
    intro hc
    exact h hc.2

/-- The cleaning loop over any candidate stream is the first-seen
deduplication of the normalized candidates that pass the length floor,
relative to an arbitrary starting accumulator. -/
theorem foldl_phoneCleanStep_eq :
    ∀ (l : List String) (acc : List String),
      l.foldl phoneCleanStep acc =
        acc ++ dedupAcc acc
          ((l.map normalizePhone).filter (fun p => decide (11 ≤ p.length))) := by
  intro l
  induction l with
  | nil => intro acc; simp [dedupAcc]
  | cons ph l ih =>
    intro acc
    by_cases hlen : 11 ≤ (normalizePhone ph).length
    · by_cases hmem : normalizePhone ph ∈ acc
      · rw [List.foldl_cons, phoneCleanStep_drop (Or.inl hmem), ih acc,
          List.map_cons, List.filter_cons, if_pos (by simpa using hlen),
          dedupAcc_cons_mem hmem]
      · rw [List.foldl_cons, phoneCleanStep_keep hmem hlen, ih (acc ++ [normalizePhone ph]),
          List.map_cons, List.filter_cons, if_pos (by simpa using hlen),
          dedupAcc_cons_not_mem hmem, List.append_assoc]
        rfl
    · rw [List.foldl_cons, phoneCleanStep_drop (Or.inr hlen), ih acc,
        List.map_cons, List.filter_cons, if_neg (by simpa using hlen)]

theorem foldl_phoneCleanStep_length :
    ∀ (l : List String) (acc : List String),
      (∀ x ∈ acc, 11 ≤ x.length) →
      ∀ x ∈ l.foldl phoneCleanStep acc, 11 ≤ x.length := by
  intro l
  induction l with
  | nil => intro acc hacc x hx; exact hacc x hx
  | cons ph l ih =>
    intro acc hacc x hx
    rw [List.foldl_cons] at hx
    refine ih (phoneCleanStep acc ph) ?_ x hx
    intro y hy
    unfold phoneCleanStep at hy
    by_cases hc : normalizePhone ph ∉ acc ∧ 11 ≤ (normalizePhone ph).length
    · rw [if_pos hc] at hy
      rcases List.mem_append.1 hy with hy | hy
      · exact hacc y hy
      · rw [List.mem_singleton.1 hy]
        exact hc.2
    · rw [if_neg hc] at hy
      exact hacc y hy

/-! ## Claim theorems -/

/-- C1 (code behavior at the failing input): on the whitespace-separated
mobile number `"612 34 56 78"`, which matches the mobile pattern with no
country prefix, `extract_phone_from_text` returns the empty list — not
`["+34612345678"]` as the specification requires.  `re.findall` applied to
a pattern with exactly one capture group returns only the group text (here
the absent optional prefix, i.e. the empty string), which normalizes to
`"+34"` and is discarded by the 11-character floor, so separated digit
groups are lost entirely. -/
theorem extract_phone_separated_mobile_lost :
    extract_phone_from_text (some "612 34 56 78") = [] := by decide

/-- C2: `extract_phone_from_text` on `"0034612345678"` returns exactly
`["+34612345678"]` (the bare 9-digit fallback pattern matches the digits
after the trunk prefix and is normalized by prepending `"+34"`). -/
theorem extract_phone_trunk_prefix_normalized :
    extract_phone_from_text (some "0034612345678") = ["+34612345678"] := by decide

/-- C4: `scrape_property_detail` is a total function of the fetch outcome,
and on every failure of the HTTP fetch/decode/parse (the `except` arm) it
returns the empty Contact Bundle `{'phones': [], 'emails': []}`. -/
theorem scrape_property_detail_failure_empty (msg : String) :
    scrape_property_detail (Except.error msg) = { phones := [], emails := [] } :=
  rfl

/-- C5: every string returned by `extract_phone_from_text` has length at
least 11; a normalized candidate shorter than 11 characters is silently
dropped by the cleaning loop (the function is total and never errors). -/
theorem extract_phone_length_floor (t : Option String) (s : String)
    (h : s ∈ extract_phone_from_text t) : 11 ≤ s.length := by
  unfold extract_phone_from_text at h
  exact foldl_phoneCleanStep_length (phoneCandidatesOf t) [] (by intro x hx; cases hx) s h

/-- Witness for C5 at a concrete input. -/
theorem extract_phone_length_floor_witness : 11 ≤ ("+34612345678" : String).length :=
  extract_phone_length_floor (some "612345678") "+34612345678" (by decide)

/-- C6: for every input, the result of `extract_phone_from_text` is exactly
the first-seen-order deduplication of the normalized candidates that pass
the length floor (hence lists each phone in encountered order), contains no
duplicates, and — the extractor being a pure function — applying it twice
to the same text yields the identical list. -/
theorem extract_phone_nodup_first_seen (t : Option String) :
    extract_phone_from_text t =
        pySetList (((phoneCandidatesOf t).map normalizePhone).filter
          (fun p => decide (11 ≤ p.length))) ∧
      (extract_phone_from_text t).Nodup ∧
      extract_phone_from_text t = extract_phone_from_text t := by
  have h1 : extract_phone_from_text t =
      pySetList (((phoneCandidatesOf t).map normalizePhone).filter
        (fun p => decide (11 ≤ p.length))) := by
    unfold extract_phone_from_text pySetList
    rw [foldl_phoneCleanStep_eq (phoneCandidatesOf t) []]
    rfl
  refine ⟨h1, ?_, rfl⟩
  rw [h1]
  exact dedupAcc_nodup _ []

/-- C8: `build_search_url` returns the base URL verbatim at page 1 and
appends `pagina-N.htm` for every page `N > 1`; in particular for the base
`"https://x/y/"` it returns the base unchanged at page 1 and
`"https://x/y/pagina-3.htm"` at page 3. -/
theorem build_search_url_paging (base : String) (n : Int) (h : 1 < n) :
    build_search_url base 1 = base ∧
      build_search_url base n = base ++ "pagina-" ++ toString n ++ ".htm" ∧
      build_search_url "https://x/y/" 1 = "https://x/y/" ∧
      build_search_url "https://x/y/" 3 = "https://x/y/pagina-3.htm" := by
  refine ⟨by simp [build_search_url], ?_, by decide, by decide⟩
  unfold build_search_url
  rw [if_neg (by omega)]

/-- Witness for C8 at the concrete base and page of the claim. -/
theorem build_search_url_paging_witness :
    build_search_url "https://x/y/" 3 = "https://x/y/pagina-3.htm" :=
  (build_search_url_paging "https://x/y/" 3 (by decide)).2.2.2

/-- C9: `extract_email_from_text` on
`"Contact: a.b@example.co, again a.b@example.co"` returns exactly the one
entry `"a.b@example.co"`, and in general its result never contains
duplicate strings. -/
theorem extract_email_dedup :
    extract_email_from_text (some "Contact: a.b@example.co, again a.b@example.co") =
        ["a.b@example.co"] ∧
      ∀ t : Option String, (extract_email_from_text t).Nodup := by
  refine ⟨by decide, ?_⟩
  intro t
  match t with
  | none => simp [extract_email_from_text]
  | some s =>
    show (if s = "" then [] else pySetList (pyFindall matchEmail s.data)).Nodup
    by_cases hs : s = ""
    · simp [hs]
    · rw [if_neg hs]
      exact dedupAcc_nodup _ []

/-- C10: on an absent (`None`) or empty text, both extractors return the
empty list; being total Lean functions, they raise no exception. -/
theorem extract_on_empty_input :
    extract_phone_from_text none = [] ∧
      extract_phone_from_text (some "") = [] ∧
      extract_email_from_text none = [] ∧
      extract_email_from_text (some "") = [] :=
  ⟨rfl, by decide, rfl, by decide⟩

/-! ## Listing-loop lemmas -/

theorem processArticle_mem {detail : String → Contacts}
    {urlj : String → String → String} {now : String} {a : Article}
    {acc : List ListingRecord} {r : ListingRecord}
    (h : r ∈ processArticle detail urlj now a acc) :
    r ∈ acc ∨ (r.telefonos ≠ [] ∨ r.emails ≠ []) := by
  unfold processArticle at h
  split at h
  · exact Or.inl h
  · split at h
    · exact Or.inl h
    · rename_i u _
      split at h
      · exact Or.inl h
      · split at h
        · rcases List.mem_append.1 h with h | h
          · exact Or.inl h
          · rw [List.mem_singleton.1 h]
            rename_i hne _
            exact Or.inr hne
        · exact Or.inl h

theorem processArticle_agency {detail : String → Contacts}
    {urlj : String → String → String} {now : String} {a : Article}
    (h : isAgencyArticle a = true) (acc : List ListingRecord) :
    processArticle detail urlj now a acc = acc := by
  simp [processArticle, h]

theorem scrapeGo_stop {detail : String → Contacts}
    {urlj : String → String → String} {now : String} {maxp : Int}
    {acc : List ListingRecord} (h : maxp ≤ (acc.length : Int)) :
    ∀ arts : List Article, scrapeGo detail urlj now maxp arts acc = acc
  | [] => rfl
  | _ :: _ => by rw [scrapeGo, if_pos h]

theorem scrapeGo_invariant {detail : String → Contacts}
    {urlj : String → String → String} {now : String} {maxp : Int} :
    ∀ (arts : List Article) (acc : List ListingRecord),
      (∀ r ∈ acc, r.telefonos ≠ [] ∨ r.emails ≠ []) →
      ∀ r ∈ scrapeGo detail urlj now maxp arts acc,
        r.telefonos ≠ [] ∨ r.emails ≠ [] := by
  intro arts
  induction arts with
  | nil => intro acc hacc r hr; exact hacc r hr
  | cons a rest ih =>
    intro acc hacc r hr
    rw [scrapeGo] at hr
    split at hr
    · exact hacc r hr
    · refine ih (processArticle detail urlj now a acc) ?_ r hr
      intro y hy
      rcases processArticle_mem hy with hy | hy
      · exact hacc y hy
      · exact hy

theorem scrapeGo_agency_skip {detail : String → Contacts}
    {urlj : String → String → String} {now : String} {maxp : Int} {a : Article}
    (ha : isAgencyArticle a = true) :
    ∀ (pre : List Article) (post : List Article) (acc : List ListingRecord),
      scrapeGo detail urlj now maxp (pre ++ a :: post) acc =
        scrapeGo detail urlj now maxp (pre ++ post) acc := by
  intro pre
  induction pre with
  | nil =>
    intro post acc
    show scrapeGo detail urlj now maxp (a :: post) acc = scrapeGo detail urlj now maxp post acc
    by_cases hb : maxp ≤ (acc.length : Int)
    · rw [scrapeGo, if_pos hb, scrapeGo_stop hb post]
    · rw [scrapeGo, if_neg hb, processArticle_agency ha]
  | cons p pre ih =>
    intro post acc
    show scrapeGo detail urlj now maxp (p :: (pre ++ a :: post)) acc =
      scrapeGo detail urlj now maxp (p :: (pre ++ post)) acc
    by_cases hb : maxp ≤ (acc.length : Int)
    · rw [scrapeGo, if_pos hb, scrapeGo, if_pos hb]
    · rw [scrapeGo, if_neg hb, scrapeGo, if_neg hb]
      exact ih post (processArticle detail urlj now p acc)

/-- C3: every listing record returned by `scrape_idealista_contacts` has a
non-empty phone list or a non-empty email list, whatever the detail pages
yield — a listing whose Contact Bundle is empty in both fields is never
emitted. -/
theorem scrape_contacts_nonempty (articles : List Article)
    (detail : String → Contacts) (urlj : String → String → String)
    (now : String) (maxp : Int) (rec : ListingRecord)
    (h : rec ∈ scrape_idealista_contacts articles detail urlj now maxp) :
    rec.telefonos ≠ [] ∨ rec.emails ≠ [] := by
  unfold scrape_idealista_contacts at h
  exact scrapeGo_invariant articles [] (by intro r hr; cases hr) rec h

/-- A concrete non-agency candidate listing used by the loop witnesses. -/
def articleW : Article :=
  { extra_info := none,
    title_el := some { href := some "https://www.idealista.com/inmueble/5/", text := "T" },
    price_text := none, location_text := none }

/-- A concrete agency-tagged candidate listing. -/
def agencyArticleW : Article :=
  { extra_info := some "Inmobiliaria XYZ",
    title_el := some { href := some "https://www.idealista.com/inmueble/7/", text := "A" },
    price_text := none, location_text := none }

/-- A concrete detail-fetch oracle returning one phone for every URL. -/
def detailW : String → Contacts := fun _ => { phones := ["+34600000000"], emails := [] }

/-- A concrete stand-in for `urljoin` (unused on absolute URLs). -/
def urljW : String → String → String := fun _ r => r

/-- The record the loop builds from `articleW` under `detailW`. -/
def recW : ListingRecord :=
  { id := some "5", titulo := "T", precio := "", ubicacion := "",
    url := "https://www.idealista.com/inmueble/5/",
    telefonos := ["+34600000000"], emails := [], fecha_scraping := "ts" }

/-- Witness for C3 at a concrete scrape. -/
theorem scrape_contacts_nonempty_witness : recW.telefonos ≠ [] ∨ recW.emails ≠ [] :=
  scrape_contacts_nonempty [articleW] detailW urljW "ts" 10 recW (by decide)

/-- C7: a candidate listing whose subtitle/extra-info text matches
`agencia|inmobiliaria` case-insensitively is skipped entirely: wherever it
occurs among the candidates, the returned list is the same as if it were
absent, regardless of the detail oracle (i.e. of what contacts its detail
page would yield). -/
theorem scrape_agency_skipped (a : Article) (s : String)
    (h1 : a.extra_info = some s) (h2 : agencyMatch s = true)
    (pre post : List Article) (detail : String → Contacts)
    (urlj : String → String → String) (now : String) (maxp : Int) :
    scrape_idealista_contacts (pre ++ a :: post) detail urlj now maxp =
      scrape_idealista_contacts (pre ++ post) detail urlj now maxp := by
  have ha : isAgencyArticle a = true := by
    unfold isAgencyArticle
    rw [h1]
    exact h2
  unfold scrape_idealista_contacts
  exact scrapeGo_agency_skip ha pre post []

/-- Witness for C7: the concrete listing subtitled `"Inmobiliaria XYZ"` is
dropped even though its detail page would yield a phone. -/
theorem scrape_agency_skipped_witness :
    scrape_idealista_contacts [agencyArticleW] detailW urljW "ts" 10 =
      scrape_idealista_contacts [] detailW urljW "ts" 10 :=
  scrape_agency_skipped agencyArticleW "Inmobiliaria XYZ" rfl (by decide)
    [] [] detailW urljW "ts" 10
